import Mathlib

/-!
Verification of the smart-mirror-tui card scheduling and data-normalization
core against its natural-language specification.

The Python source is shallowly embedded:

* `datetime` values are modelled by `DT` (an instant in seconds since the
  epoch together with a UTC-offset in seconds); comparison of timezone-aware
  Python datetimes compares instants, `strftime` displays the wall clock
  `instant + offset`.
* JSON / iCal feed payloads are modelled by explicit structures mirroring the
  dictionary shapes the code reads.
* `list.sort(key=...)` (Timsort, a stable ascending sort) is modelled by
  `List.insertionSort`, which is also stable, so both produce the identical
  output list for the same key relation.
* fallible operations return `Option`/`Except`; exception handlers in the
  source become the corresponding `match` arms.

All times are integral seconds; the host clock is taken to run in UTC, so the
naive wall clock of `datetime.now()` coincides with the current instant.
-/

namespace SmartMirror

/-- A Python `datetime`: `instant` is seconds since the epoch (the value
compared by `<`/`-` on aware datetimes) and `offset` is the `tzinfo` UTC
offset in seconds, so the wall clock displayed by `strftime` is
`instant + offset`.  A naive datetime replaced with `timezone.utc` has
`offset = 0` and `instant` equal to its wall clock. -/
structure DT where
  instant : Int
  offset : Int
deriving DecidableEq

/-- The wall-clock value of a datetime, i.e. what `replace(tzinfo=None)`
preserves and what `strftime` displays. -/
def DT.wall (t : DT) : Int := t.instant + t.offset

/-- Python-style floor division for nonnegative divisors (`//`). -/
def pyDiv (a b : Int) : Int := Int.fdiv a b

/-- Python-style remainder for positive divisors (`%`). -/
def pyMod (a b : Int) : Int := Int.emod a b

/-- Embedding of `math.ceil(a / b)` for a positive divisor `b`. -/
def ceilDiv (a b : Int) : Int := -(Int.fdiv (-a) b)

/-- Python `int(round(a / 60))`: round to nearest with ties to even
(banker's rounding), as `round` does on the exact rational `a / 60`. -/
def pyRound60 (a : Int) : Int :=
  let q := Int.fdiv a 60
  let r := Int.emod a 60
  if 2 * r < 60 then q
  else if 60 < 2 * r then q + 1
  else if Int.emod q 2 = 0 then q else q + 1

/-- Python `"sep".join(parts)`. -/
def joinWith (sep : String) : List String → String
  | [] => ""
  | [x] => x
  | x :: xs => x ++ sep ++ joinWith sep xs

/-- Does the second character list start with the first? -/
def charsStart : List Char → List Char → Bool
  | [], _ => true
  | _ :: _, [] => false
  | a :: as, b :: bs => a == b && charsStart as bs

/-- Does the second character list contain the first as a contiguous run? -/
def charsContain (needle : List Char) : List Char → Bool
  | [] => needle.isEmpty
  | b :: bs => charsStart needle (b :: bs) || charsContain needle bs

/-- Python substring test `needle in hay`. -/
def strContains (hay needle : String) : Bool :=
  charsContain needle.data hay.data

/-- Python `str.upper()` (ASCII, which is all the feed sends), applied
characterwise. -/
def strUpper (s : String) : String := ⟨s.data.map Char.toUpper⟩

/-- Python `str.lower()` (ASCII), applied characterwise. -/
def strLower (s : String) : String := ⟨s.data.map Char.toLower⟩

/-- Zero-padded two-digit rendering used by `strftime` fields. -/
def pad2 (n : Int) : String :=
  if n < 10 then "0" ++ toString n else toString n

/-- Python `strftime("%H:%M")`: hours and minutes of the wall clock. -/
def strftimeHM (t : DT) : String :=
  pad2 (pyMod (pyDiv t.wall 3600) 24) ++ ":" ++ pad2 (pyMod (pyDiv t.wall 60) 60)

namespace Transport

/-- A raw timestamp field of a feed entry (`realtime` / `scheduled`): missing
or falsy, present but not ISO-8601, or an ISO-8601 string.  A parsable string
carries its wall-clock value and, when the text has an explicit zone offset,
that offset in seconds. -/
inductive TimeVal where
  | absent
  | invalid
  | isoNaive (wall : Int)
  | isoAware (wall : Int) (off : Int)
deriving DecidableEq

/-- Embedding of `TransportCard._parse_time`: `datetime.fromisoformat` then
`replace(tzinfo=timezone.utc)` when naive; absent or unparsable values give
`None`. -/
def parse_time : TimeVal → Option DT
  | .absent => none
  | .invalid => none
  | .isoNaive w => some ⟨w, 0⟩
  | .isoAware w off => some ⟨w - off, off⟩

/-- The `route` object of a feed entry. -/
structure Route where
  designation : Option String
  routeName : Option String
  direction : String
  transport_mode : String
deriving DecidableEq

/-- One entry of the `departures` array. -/
structure Entry where
  canceled : Bool
  realtime : TimeVal
  scheduled : TimeVal
  delay : Option Int
  route : Route
deriving DecidableEq

/-- The feed payload: its `departures` array; a `None`/empty (falsy) element
is modelled as `none`. -/
structure Payload where
  departures : List (Option Entry)
deriving DecidableEq

/-- A parsed departure record as built by `TransportCard._parse_entry`. -/
structure Dep where
  line : String
  destination : String
  expected : Option DT
  timetable : Option DT
  delay_seconds : Int
  transport_mode : String
deriving DecidableEq

/-- Embedding of `TransportCard._parse_entry`: drop falsy or cancelled entries, parse both
timestamps independently, and read the route descriptor
(`designation or name`, with Python falsiness of `None` and `""`). -/
def parse_entry : Option Entry → Option Dep
  | none => none
  | some e =>
    if e.canceled then none
    else
      let desig := e.route.designation.getD ""
      some
        { line := if desig ≠ "" then desig else e.route.routeName.getD ""
          destination := e.route.direction
          expected := parse_time e.realtime
          timetable := parse_time e.scheduled
          delay_seconds := e.delay.getD 0
          transport_mode := strUpper e.route.transport_mode }

/-- The configuration fields of `TransportCard.__init__` that the
parsing/rendering logic can see. -/
structure TransportCard where
  station_id : String
  api_key : Option String
  delay_threshold : Int
  time_window : Int
  max_departures : Nat
deriving DecidableEq

/-- Embedding of `TransportCard._sort_key`: expected time, falling back to the timetable
time, falling back to the current fetch time (an aware "now" in UTC).
Aware datetimes are ordered by instant. -/
def sort_key (now : Int) (item : Dep) : DT :=
  (item.expected).getD ((item.timetable).getD ⟨now, 0⟩)

/-- Embedding of `TransportCard._parse_departures`: flatten the payload, drop invalid
records, and stable-sort ascending by `_sort_key` (Python's `list.sort` is a
stable ascending sort; `insertionSort` is the same stable sort). -/
def parse_departures (_c : TransportCard) (now : Int) (payload : Payload) : List Dep :=
  let items := payload.departures.filterMap parse_entry
  items.insertionSort (fun a b => (sort_key now a).instant ≤ (sort_key now b).instant)

/-- Embedding of `TransportCard._format_time`: relative phrase for the expected time.
`_now_provider(expected.tzinfo or timezone.utc)` yields the same instant
`now` whatever the zone; `delta` is the difference of instants. -/
def format_time (now : Int) (expected : Option DT) : String :=
  match expected with
  | some e =>
    let delta := e.instant - now
    if delta < -60 then "left"
    else if delta < 60 then "now"
    else
      let minutes := ceilDiv delta 60
      "in " ++ toString minutes ++ "m (" ++ strftimeHM e ++ ")"
  | none => "n/a"

/-- Embedding of `TransportCard._format_delay`: warning only when the delay is truthy and
its magnitude reaches the threshold. -/
def format_delay (delay_threshold : Int) (delay_seconds : Int) : String :=
  if delay_seconds = 0 ∨ |delay_seconds| < delay_threshold then ""
  else
    let minutes := pyRound60 delay_seconds
    let sign := if 0 ≤ minutes then "+" else "-"
    "[WARN " ++ sign ++ toString minutes.natAbs ++ "m]"

/-- Embedding of `TransportCard._mode_label`: glyph table lookup with the mode itself as
default (`labels.get(mode or "", mode or "")`).  The glyph strings are the
exact (mojibake) literals of the source file. -/
def mode_label (mode : String) : String :=
  let labels : List (String × String) :=
    [("BUS", "ðŸš"), ("METRO", "â“‚ï¸"), ("TRAIN", "ðŸš†"),
     ("TRAM", "ðŸšŠ"), ("BOAT", "ðŸ›¥"), ("TAXI", "ðŸš•")]
  ((labels.lookup mode).getD mode)

/-- The `parts` list built by `TransportCard._format_line` (the delay part is
appended only when truthy). -/
def line_parts (delay_threshold : Int) (now : Int) (dep : Dep) : List String :=
  let base := [mode_label dep.transport_mode, dep.line, dep.destination, "-",
               format_time now dep.expected]
  let delay_part := format_delay delay_threshold dep.delay_seconds
  if delay_part ≠ "" then base ++ [delay_part] else base

/-- Embedding of `TransportCard._format_line`: join the truthy parts with spaces. -/
def format_line (delay_threshold : Int) (now : Int) (dep : Dep) : String :=
  joinWith " " ((line_parts delay_threshold now dep).filter (fun p => p ≠ ""))

/-- Embedding of `TransportCard._format_departures`: first `max_departures` records, one
line each. -/
def format_departures (c : TransportCard) (now : Int) (deps : List Dep) : String :=
  joinWith "\n" ((deps.take c.max_departures).map (format_line c.delay_threshold now))

/-- The message `TransportCard.update` leaves on the widget after a
successful fetch (config guard, parse, empty-list message, or the formatted
list). -/
def transport_update_render (c : TransportCard) (now : Int) (payload : Payload) : String :=
  if c.station_id = "" ∨ c.api_key.getD "" = "" then
    "Transport card not configured: set TRANSPORT_STATION_ID and TRANSPORT_API_KEY."
  else
    let deps := parse_departures c now payload
    if deps = [] then "No upcoming departures in the next 60 minutes."
    else format_departures c now deps

/-- A parsed departure record with neither an expected nor a timetable time
(both feed timestamps absent or unparsable). -/
def unresolvable (d : Dep) : Bool := d.expected.isNone && d.timetable.isNone

/-- The sorting property claimed of `_parse_departures`: once an
unresolvable-time record appears, everything after it is unresolvable too,
i.e. unresolvable records come after every record with a resolvable time. -/
def unresolvable_last (l : List Dep) : Prop :=
  l.Pairwise (fun a b => unresolvable a = true → unresolvable b = true)

end Transport

namespace Calendar

/-- A `DTSTART` value as handed over by the icalendar library: either a
datetime (naive or with an explicit zone offset, in seconds) or a bare date,
modelled by the wall-clock seconds of its midnight. -/
inductive StartVal where
  | dateTime (wall : Int) (tz : Option Int)
  | dateOnly (midnight : Int)
deriving DecidableEq

/-- A component of the parsed iCal tree as visited by `cal.walk()`. -/
structure Component where
  name : String
  dtstart : Option StartVal
  summary : Option String
deriving DecidableEq

/-- The start-time normalization of `_parse_ical_events`: naive datetimes get
`tzinfo=timezone.utc` (wall clock preserved), aware datetimes are kept, bare
dates become UTC midnight via `datetime.combine(d, time.min)`. -/
def normalize_start : StartVal → DT
  | .dateTime w none => ⟨w, 0⟩
  | .dateTime w (some off) => ⟨w - off, off⟩
  | .dateOnly m => ⟨m, 0⟩

/-- The table `CalendarCard.EVENT_ICONS`, in dictionary insertion order. -/
def EVENT_ICONS : List (String × String) :=
  [("meeting", "🗓️"), ("call", "📞"), ("lunch", "🍽️"), ("birthday", "🎂"),
   ("travel", "✈️"), ("workout", "💪"), ("doctor", "🏥"), ("default", "📅")]

/-- Embedding of `CalendarCard._get_event_icon`: first keyword that occurs in the
lowercased summary wins, else the default icon. -/
def get_event_icon (summary : String) : String :=
  let summary_lower := strLower summary
  ((EVENT_ICONS.find? fun kv => strContains summary_lower kv.1).map Prod.snd).getD "📅"

/-- An event dict as built by `_parse_ical_events`. -/
structure CalEvent where
  summary : String
  start : DT
  icon : String
deriving DecidableEq

/-- The outcome of `Calendar.from_ical` + `walk()` on the fetched text:
either the library raises (malformed feed) or it yields components. -/
inductive ICalFeed where
  | malformed
  | wellFormed (components : List Component)
deriving DecidableEq

/-- The event-collection loop of `_parse_ical_events`: keep `VEVENT`
components with a truthy start and summary whose zone-stripped start wall
clock is at or after the zone-stripped `datetime.now()`. -/
def collect_events (now : Int) : List Component → List CalEvent
  | [] => []
  | comp :: rest =>
    let tail := collect_events now rest
    if comp.name = "VEVENT" then
      match comp.dtstart, comp.summary with
      | some sv, some s =>
        if s ≠ "" then
          let start_dt := normalize_start sv
          if now ≤ start_dt.wall then
            ⟨s, start_dt, get_event_icon s⟩ :: tail
          else tail
        else tail
      | _, _ => tail
    else tail

/-- Embedding of `CalendarCard._parse_ical_events`: a malformed feed raises inside the
try-block and the handler returns `[]`; otherwise collect the retained
events and stable-sort ascending by start (aware datetimes compare by
instant). -/
def parse_ical_events (now : Int) : ICalFeed → List CalEvent
  | .malformed => []
  | .wellFormed comps =>
    (collect_events now comps).insertionSort fun a b => a.start.instant ≤ b.start.instant

/-- The `strftime("%a")` weekday abbreviations, Monday first. -/
def WEEKDAYS : List String := ["Mon", "Tue", "Wed", "Thu", "Fri", "Sat", "Sun"]

/-- The `strftime("%b")` month abbreviations. -/
def MONTHS : List String :=
  ["Jan", "Feb", "Mar", "Apr", "May", "Jun", "Jul", "Aug", "Sep", "Oct", "Nov", "Dec"]

/-- Gregorian civil date (year, month, day) from days since the epoch
(standard era-based conversion). -/
def civilFromDays (z0 : Int) : Int × Int × Int :=
  let z := z0 + 719468
  let era := Int.fdiv z 146097
  let doe := z - era * 146097
  let yoe := Int.fdiv (doe - Int.fdiv doe 1460 + Int.fdiv doe 36524 - Int.fdiv doe 146096) 365
  let y := yoe + era * 400
  let doy := doe - (365 * yoe + Int.fdiv yoe 4 - Int.fdiv yoe 100)
  let mp := Int.fdiv (5 * doy + 2) 153
  let d := doy - Int.fdiv (153 * mp + 2) 5 + 1
  let m := if mp < 10 then mp + 3 else mp - 9
  (if m ≤ 2 then y + 1 else y, m, d)

/-- The civil day a datetime falls on (`dt.date()` equality compares this). -/
def dateOf (t : DT) : Int := pyDiv t.wall 86400

/-- Python `strftime("%a %b %d, %H:%M")` of a datetime's wall clock. -/
def strftimeAbD (t : DT) : String :=
  let days := pyDiv t.wall 86400
  let md := civilFromDays days
  let wd := pyMod (days + 3) 7
  (WEEKDAYS.getD wd.toNat "") ++ " " ++ (MONTHS.getD (md.2.1 - 1).toNat "") ++ " "
    ++ pad2 md.2.2 ++ ", " ++ strftimeHM t

/-- Embedding of `CalendarCard._format_time`: Today/Tomorrow/weekday label relative to
`datetime.now(dt.tzinfo)`. -/
def format_cal_time (dt : DT) (nowInstant : Int) : String :=
  let now : DT := ⟨nowInstant, dt.offset⟩
  if dateOf dt = dateOf now then "Today " ++ strftimeHM dt
  else if dateOf dt = dateOf ⟨now.instant + 86400, now.offset⟩ then "Tomorrow " ++ strftimeHM dt
  else strftimeAbD dt

/-- The configuration of `CalendarCard.__init__` seen by the logic. -/
structure CalendarCard where
  ical_url : String
  max_events : Nat
deriving DecidableEq

/-- The card's mutable display state (`_events`, `_error_message`). -/
structure CalState where
  events : List CalEvent
  error_message : String
deriving DecidableEq

/-- What the fetch inside `CalendarCard.update` produced: the response text
(already classified as parsable or not), an `httpx.HTTPError`, or any other
exception. -/
inductive FetchOutcome where
  | ok (feed : ICalFeed)
  | httpError (msg : String)
  | otherError (msg : String)
deriving DecidableEq

/-- Python `str(e)[:30]`: the first 30 characters. -/
def truncate30 (s : String) : String := ⟨s.data.take 30⟩

/-- Embedding of `CalendarCard.update`: state after one update call; every failure is
caught inside the method, so it always returns a state (never raises). -/
def calendar_update (card : CalendarCard) (st : CalState) (now : Int)
    (outcome : FetchOutcome) : CalState :=
  if card.ical_url = "" then { st with error_message := "No iCal URL configured" }
  else
    match outcome with
    | .ok feed => { events := parse_ical_events now feed, error_message := "" }
    | .httpError m => { st with error_message := "HTTP Error: " ++ truncate30 m }
    | .otherError m => { st with error_message := "Error: " ++ truncate30 m }

/-- The two display lines `_format_calendar` emits per event. -/
def event_block (isFirst : Bool) (now : Int) (e : CalEvent) : List String :=
  let time_str := format_cal_time e.start now
  if isFirst then
    ["[bold]" ++ e.icon ++ " " ++ e.summary ++ "[/bold]",
     "[white]   " ++ time_str ++ "[/white]"]
  else
    ["[dim]" ++ e.icon ++ " " ++ e.summary ++ "[/dim]",
     "[dim]   " ++ time_str ++ "[/dim]"]

/-- The body of `_format_calendar`'s event loop, with a blank spacer line
between events but not after the last. -/
def event_lines (now : Int) : Bool → List CalEvent → List String
  | _, [] => []
  | isFirst, [e] => event_block isFirst now e
  | isFirst, e :: rest => event_block isFirst now e ++ [""] ++ event_lines now false rest

/-- Embedding of `CalendarCard._format_calendar`: inline error when an error message is
set (and is not the initial "Loading..."), a fixed no-events message when the
event list is empty, else the formatted event list. -/
def format_calendar (card : CalendarCard) (st : CalState) (now : Int) : String :=
  if st.error_message ≠ "" ∧ st.error_message ≠ "Loading..." then
    "[bold red]Calendar Error[/bold red]\n" ++ st.error_message
  else if st.events = [] then
    "[bold]📅  Calendar[/bold]\n\nNo upcoming events"
  else
    joinWith "\n" (event_lines now true (st.events.take card.max_events))

/-- The property that every event in a parsed list starts at or after the
fetch instant (what "only future events are retained" means for instants). -/
def future_only (nowInstant : Int) (l : List CalEvent) : Prop :=
  ∀ e ∈ l, nowInstant ≤ e.start.instant

end Calendar

namespace Base

/-- The per-card state `Card._update_loop` manipulates: the `_running` flag,
the card's internal display state, and `_last_update`. -/
structure LoopCard (σ : Type) where
  running : Bool
  internal : σ
  last_update : Option Int

/-- One iteration of `Card._update_loop`.  `upd` is the card's `update`
(returning the new internal state or the exception it raised).  The boolean
result says whether the loop goes on to sleep and run the next tick: the
`except` arm only logs, so a failing update still reaches the next tick. -/
def update_loop_iter {σ : Type} (upd : σ → Except String σ) (now : Int)
    (c : LoopCard σ) : LoopCard σ × Bool :=
  if c.running then
    match upd c.internal with
    | .ok s => ({ c with internal := s, last_update := some now }, true)
    | .error _ => (c, true)
  else (c, false)

/-- Embedding of `CardWidget._update_card`: update the card, stamping `_last_update` only
on success; the handler logs and leaves state and timestamp untouched (the
`set_interval` timer that schedules the next call is unaffected). -/
def widget_update_card {σ : Type} (upd : σ → Except String σ) (now : Int)
    (st : σ) (lu : Option Int) : σ × Option Int :=
  match upd st with
  | .ok s => (s, some now)
  | .error _ => (st, lu)

/-- The suspension points of `_update_loop`: resuming at the top of the loop
body (about to check `_running` and run `update`), or inside
`asyncio.sleep`. -/
inductive TaskPC where
  | loopHead
  | sleeping
deriving DecidableEq

/-- The state of the `asyncio.Task` running `_update_loop`. -/
inductive TaskStatus where
  | pending (pc : TaskPC)
  | finished
deriving DecidableEq

/-- A card with its update task, under asyncio's cooperative scheduling:
`task` is `_update_task` (status plus cancel-requested flag) and `updates`
counts invocations of the card's `update`. -/
structure CardSys where
  running : Bool
  task : Option (TaskStatus × Bool)
  updates : Nat
deriving DecidableEq

/-- One scheduler step of the update task.  A requested cancellation is
observed at the next suspension point and the raised `CancelledError` is not
caught by the loop's `except Exception`, so the task finishes; otherwise the
loop checks `_running`, runs `update`, and sleeps. -/
def task_step (s : CardSys) : CardSys :=
  match s.task with
  | none => s
  | some (.finished, _) => s
  | some (.pending pc, cancelled) =>
    if cancelled then { s with task := some (.finished, cancelled) }
    else
      match pc with
      | .loopHead =>
        if s.running then
          { s with updates := s.updates + 1, task := some (.pending .sleeping, cancelled) }
        else { s with task := some (.finished, cancelled) }
      | .sleeping => { s with task := some (.pending .loopHead, cancelled) }

/-- Embedding of `Card.start`: set `_running` and create the update task. -/
def card_start (s : CardSys) : CardSys :=
  { s with running := true, task := some (.pending .loopHead, false), updates := 0 }

/-- Embedding of `Card.stop`: clear `_running`, request cancellation of the task if there
is one, and `await` it — i.e. run the event loop until the task is finished
(a `CancelledError` from the await is caught and ignored, so stop never
raises, also when the task is already cancelled or finished). -/
def card_stop (s : CardSys) : CardSys :=
  let s1 : CardSys := { s with running := false }
  match s1.task with
  | none => s1
  | some (ts, _) => task_step { s1 with task := some (ts, true) }

end Base

namespace App

/-- A registered card as the registry sees it: its configured name plus an
identity distinguishing instances. -/
structure RCard where
  name : String
  instanceId : Nat
deriving DecidableEq

/-- The registry's `self.cards` dictionary, modelled by its lookup
function. -/
def Registry := String → Option RCard

/-- The empty dictionary the app starts with. -/
def empty_registry : Registry := fun _ => none

/-- Embedding of `SmartMirrorApp.register_card`: `self.cards[card.name] = card`
(assignment overwrites any previous binding of that exact key). -/
def register_card (r : Registry) (c : RCard) : Registry :=
  fun k => if k = c.name then some c else r k

/-- Embedding of `SmartMirrorApp.get_card`: `self.cards.get(name)`. -/
def get_card (r : Registry) (n : String) : Option RCard := r n

/-- A sequence of registrations starting from the empty registry. -/
def register_all (cs : List RCard) : Registry :=
  cs.foldl register_card empty_registry

end App

/-! Concrete feed data used to exercise the definitions. -/

/-- A bus route towards Central, line 50. -/
def routeCentral : Transport.Route := ⟨some "50", none, "Central", "BUS"⟩

/-- The spec's example entry: live time 8 minutes past the fetch instant 0,
no scheduled time, 180 seconds of delay. -/
def entryDelayed : Transport.Entry := ⟨false, .isoNaive 480, .absent, some 180, routeCentral⟩

/-- A payload holding only `entryDelayed`. -/
def payloadDelayed : Transport.Payload := ⟨[some entryDelayed]⟩

/-- A configured transport card with delay threshold 60. -/
def cardThresh60 : Transport.TransportCard := ⟨"123", some "key", 60, 60, 6⟩

/-- The same card with delay threshold 180. -/
def cardThresh180 : Transport.TransportCard := ⟨"123", some "key", 180, 60, 6⟩

/-- The same card with delay threshold 181. -/
def cardThresh181 : Transport.TransportCard := ⟨"123", some "key", 181, 60, 6⟩

/-- An entry whose live time resolves to 300 seconds after the fetch
instant 0. -/
def entryFutureOnly : Transport.Entry := ⟨false, .isoNaive 300, .absent, none, routeCentral⟩

/-- An entry with both timestamps absent. -/
def entryNoTimes : Transport.Entry := ⟨false, .absent, .absent, none, routeCentral⟩

/-- A payload with one future resolvable entry and one unresolvable entry. -/
def payloadMixed : Transport.Payload := ⟨[some entryFutureOnly, some entryNoTimes]⟩

/-- The parsed record of `entryNoTimes`. -/
def depNoTimes : Transport.Dep := ⟨"50", "Central", none, none, 0, "BUS"⟩

/-- A VEVENT whose start has an explicit +01:00 offset and a wall clock 1000
seconds after the fetch wall clock 0, hence an instant 2600 seconds in the
past. -/
def compPastAware : Calendar.Component := ⟨"VEVENT", some (.dateTime 1000 (some 3600)), some "X"⟩

/-- A VEVENT with a naive start 100 seconds in the future and a summary
containing the "meeting" keyword. -/
def compMeeting : Calendar.Component := ⟨"VEVENT", some (.dateTime 100 none), some "Team meeting"⟩

/-- A configured calendar card. -/
def calCardFx : Calendar.CalendarCard := ⟨"https://example.com/calendar.ics", 3⟩

/-- A prior calendar state holding one event and no error. -/
def calStPrior : Calendar.CalState := ⟨[⟨"Old", ⟨0, 0⟩, "📅"⟩], ""⟩

instance (l : List Transport.Dep) : Decidable (Transport.unresolvable_last l) :=
  inferInstanceAs (Decidable (List.Pairwise
    (fun a b => Transport.unresolvable a = true → Transport.unresolvable b = true) l))

instance (n : Int) (l : List Calendar.CalEvent) : Decidable (Calendar.future_only n l) :=
  inferInstanceAs (Decidable (∀ e ∈ l, n ≤ e.start.instant))

namespace Calendar

/-- The event `_parse_ical_events` retains for one component, written out as
a single expression: a `VEVENT` with a present start and truthy summary,
kept when its zone-stripped wall-clock start is at or after the zone-stripped
fetch time.  Used to state what the parsed list contains. -/
def retained_event (now : Int) (c : Component) : Option CalEvent :=
  match c.dtstart, c.summary with
  | some sv, some s =>
    if c.name = "VEVENT" ∧ s ≠ "" ∧ now ≤ (normalize_start sv).wall then
      some ⟨s, normalize_start sv, get_event_icon s⟩
    else none
  | _, _ => none

end Calendar

/-! Helper lemmas about the string utilities. -/

theorem charsStart_self_append (s t : List Char) : charsStart s (s ++ t) = true := by
  induction s with
  | nil => rfl
  | cons a as ih => simp [charsStart, ih]

theorem charsStart_extend : ∀ (n l t : List Char), charsStart n l = true →
    charsStart n (l ++ t) = true
  | [], _, _, _ => rfl
  | a :: as, [], t, h => by simp [charsStart] at h
  | a :: as, b :: bs, t, h => by
    simp only [charsStart, Bool.and_eq_true] at h ⊢
    exact ⟨h.1, charsStart_extend as bs t h.2⟩

theorem charsContain_nil_needle (l : List Char) : charsContain [] l = true := by
  cases l <;> rfl

theorem charsContain_of_start : ∀ (n l : List Char), charsStart n l = true →
    charsContain n l = true
  | n, [], h => by
    cases n with
    | nil => rfl
    | cons a as => simp [charsStart] at h
  | n, b :: bs, h => by simp [charsContain, h]

theorem charsContain_cons (n : List Char) (b : Char) (bs : List Char)
    (h : charsContain n bs = true) : charsContain n (b :: bs) = true := by
  simp [charsContain, h]

theorem charsContain_append_right : ∀ (pre l n : List Char), charsContain n l = true →
    charsContain n (pre ++ l) = true
  | [], _, _, h => h
  | p :: ps, l, n, h => by
    rw [List.cons_append]
    exact charsContain_cons _ _ _ (charsContain_append_right ps l n h)

theorem charsContain_append_left : ∀ (l t n : List Char), charsContain n l = true →
    charsContain n (l ++ t) = true
  | [], t, n, h => by
    cases n with
    | nil => exact charsContain_nil_needle t
    | cons a as => simp [charsContain] at h
  | b :: bs, t, n, h => by
    rw [List.cons_append]
    have h' : charsStart n (b :: bs) = true ∨ charsContain n bs = true := by
      simpa [charsContain, Bool.or_eq_true] using h
    rcases h' with hs | hc
    · have := charsStart_extend n (b :: bs) t hs
      rw [List.cons_append] at this
      exact charsContain_of_start _ _ this
    · exact charsContain_cons _ _ _ (charsContain_append_left bs t n hc)

theorem strContains_append_left (a b n : String) (h : strContains a n = true) :
    strContains (a ++ b) n = true := by
  unfold strContains at *
  rw [String.data_append]
  exact charsContain_append_left _ _ _ h

theorem strContains_append_right (a b n : String) (h : strContains b n = true) :
    strContains (a ++ b) n = true := by
  unfold strContains at *
  rw [String.data_append]
  exact charsContain_append_right _ _ _ h

theorem strContains_refl (s : String) : strContains s s = true := by
  unfold strContains
  cases hd : s.data with
  | nil => rfl
  | cons b bs =>
    apply charsContain_of_start
    have := charsStart_self_append (b :: bs) []
    rwa [List.append_nil] at this

theorem strContains_joinWith (sep s : String) : ∀ (l : List String), s ∈ l →
    strContains (joinWith sep l) s = true
  | [], h => absurd h (List.not_mem_nil s)
  | [x], h => by
    rw [List.mem_singleton] at h
    subst h
    exact strContains_refl s
  | x :: y :: ys, h => by
    rcases List.mem_cons.mp h with rfl | htail
    · exact strContains_append_left _ _ _ (strContains_append_left _ _ _ (strContains_refl s))
    · exact strContains_append_right _ _ _ (strContains_joinWith sep s (y :: ys) htail)

/-! Helper lemmas about sorting and the embedded cards. -/

theorem pairwise_insertionSort_le {α : Type} (key : α → Int) (l : List α) :
    (l.insertionSort fun a b => key a ≤ key b).Pairwise fun a b => key a ≤ key b :=
  @List.sorted_insertionSort α (fun a b => key a ≤ key b)
    (fun _ _ => Int.decLe _ _) ⟨fun a b => Int.le_total (key a) (key b)⟩
    ⟨fun _ _ _ hab hbc => le_trans hab hbc⟩ l

theorem one_le_ceilDiv (d : Int) (h : 60 ≤ d) : 1 ≤ ceilDiv d 60 := by
  unfold ceilDiv
  rw [Int.fdiv_eq_ediv _ (by omega : (0 : Int) ≤ 60)]
  omega

theorem collect_events_eq_filterMap (now : Int) : ∀ comps : List Calendar.Component,
    Calendar.collect_events now comps = comps.filterMap (Calendar.retained_event now)
  | [] => rfl
  | comp :: rest => by
    have ih := collect_events_eq_filterMap now rest
    rcases comp with ⟨nm, ds, sm⟩
    rcases ds with _ | sv <;> rcases sm with _ | s <;>
      simp only [Calendar.collect_events, Calendar.retained_event, List.filterMap_cons, ih] <;>
      split_ifs <;> simp_all

theorem append_ne_empty_and_ne_loading (p x : String) (c : Char) (cs : List Char)
    (hp : p.data = c :: cs) (hc : c ≠ 'L') :
    (p ++ x) ≠ "" ∧ (p ++ x) ≠ "Loading..." := by
  constructor
  · intro h
    have h2 := congrArg String.data h
    rw [String.data_append, hp, List.cons_append] at h2
    rw [show ("" : String).data = [] from rfl] at h2
    exact absurd h2 (List.cons_ne_nil _ _)
  · intro h
    have h2 := congrArg String.data h
    rw [String.data_append, hp, List.cons_append] at h2
    rw [show ("Loading..." : String).data = 'L' :: "oading...".data from rfl] at h2
    injection h2 with h4 _
    exact hc h4

theorem format_calendar_error_branch (card : Calendar.CalendarCard) (st : Calendar.CalState)
    (now : Int) (h1 : st.error_message ≠ "") (h2 : st.error_message ≠ "Loading...") :
    Calendar.format_calendar card st now
      = "[bold red]Calendar Error[/bold red]\n" ++ st.error_message := by
  unfold Calendar.format_calendar
  rw [if_pos ⟨h1, h2⟩]

theorem mem_line_parts_time (thr now : Int) (dep : Transport.Dep) :
    Transport.format_time now dep.expected ∈ Transport.line_parts thr now dep := by
  unfold Transport.line_parts
  dsimp only
  split <;> simp

/-! Claims. -/

/-- C1, counterexample: at fetch instant 0, a payload holding one entry
resolving 300 seconds in the future and one entry with no resolvable time
is parsed into a list whose unresolvable record comes first, so unresolvable
records do not sort after every resolvable one. -/
theorem unresolvable_departure_sorts_first_cex :
    ¬ Transport.unresolvable_last (Transport.parse_departures cardThresh60 0 payloadMixed) := by
  decide

/-- C1, amended: `_parse_departures` sorts ascending by the resolved key
(expected time, else scheduled time, else the fetch-time now), and a record
with no resolvable time takes the fetch-time now itself as its key — so it
sorts after records resolving before the fetch time but before records
resolving after it, not last. -/
theorem departures_sorted_by_key_unresolvable_at_now (c : Transport.TransportCard)
    (now : Int) (payload : Transport.Payload) :
    (Transport.parse_departures c now payload).Pairwise
      (fun a b => (Transport.sort_key now a).instant ≤ (Transport.sort_key now b).instant)
    ∧ ∀ d : Transport.Dep, Transport.unresolvable d = true →
        Transport.sort_key now d = ⟨now, 0⟩ := by
  constructor
  · exact pairwise_insertionSort_le (fun d => (Transport.sort_key now d).instant) _
  · intro d hd
    simp only [Transport.unresolvable, Bool.and_eq_true, Option.isNone_iff_eq_none] at hd
    simp [Transport.sort_key, hd.1, hd.2]

/-- C1 witness: the unresolvable fixture record keys at the fetch instant. -/
theorem departures_sorted_by_key_unresolvable_at_now_witness :
    Transport.sort_key 0 depNoTimes = ⟨0, 0⟩ :=
  (departures_sorted_by_key_unresolvable_at_now cardThresh60 0 payloadMixed).2
    depNoTimes (by decide)

/-- C2, counterexample: for the entry with delay 180 s and live time
now+8m, a card with `delay_threshold = 180` still renders the delay warning
(the code suppresses the warning only when `|delay| < threshold`), so "no
delay warning is rendered" fails. -/
theorem delay_warning_at_equal_threshold_cex :
    strContains (Transport.transport_update_render cardThresh180 0 payloadDelayed)
      "[WARN +3m]" = true
    ∧ Transport.format_delay 180 180 = "[WARN +3m]" := by
  decide

/-- C2, amended: for the entry with delay 180 s and live time now+8m, the
render under `delay_threshold = 60` contains the ETA phrase "in 8m" and the
delay warning "[WARN +3m]"; under `delay_threshold = 180` the warning is
still rendered (|delay| ≥ threshold); only a threshold strictly above 180,
e.g. 181, renders no warning. -/
theorem delay_and_eta_rendering :
    strContains (Transport.transport_update_render cardThresh60 0 payloadDelayed)
      "in 8m" = true
    ∧ strContains (Transport.transport_update_render cardThresh60 0 payloadDelayed)
        "[WARN +3m]" = true
    ∧ strContains (Transport.transport_update_render cardThresh180 0 payloadDelayed)
        "[WARN +3m]" = true
    ∧ strContains (Transport.transport_update_render cardThresh181 0 payloadDelayed)
        "[WARN" = false := by
  decide

/-- C3: `_format_time` renders "left" when the expected time is more than 60
seconds in the past, "now" when it is within ±60 seconds (i.e. from 60
seconds before up to, exclusively, 60 seconds after), and otherwise
"in Nm (HH:MM)" with N the ceiling of the remaining seconds over 60, which
is at least 1 — so "in 0m" is never produced for a pending departure. -/
theorem format_time_phrase_trichotomy (now : Int) (e : DT) :
    (e.instant - now < -60 → Transport.format_time now (some e) = "left")
    ∧ (-60 ≤ e.instant - now → e.instant - now < 60 →
        Transport.format_time now (some e) = "now")
    ∧ (60 ≤ e.instant - now →
        Transport.format_time now (some e)
          = "in " ++ toString (ceilDiv (e.instant - now) 60) ++ "m (" ++ strftimeHM e ++ ")"
        ∧ 1 ≤ ceilDiv (e.instant - now) 60) := by
  refine ⟨fun h => ?_, fun h1 h2 => ?_, fun h => ⟨?_, one_le_ceilDiv _ h⟩⟩
  · simp only [Transport.format_time]
    rw [if_pos h]
  · simp only [Transport.format_time]
    rw [if_neg (by omega), if_pos h2]
  · simp only [Transport.format_time]
    rw [if_neg (by omega), if_neg (by omega)]

/-- C3 witness: the three phrases at expected times 120 s past, 30 s ahead,
and 480 s ahead of instant 0. -/
theorem format_time_phrase_trichotomy_witness :
    Transport.format_time 0 (some ⟨-120, 0⟩) = "left"
    ∧ Transport.format_time 0 (some ⟨30, 0⟩) = "now"
    ∧ (Transport.format_time 0 (some ⟨480, 0⟩)
        = "in " ++ toString (ceilDiv 480 60) ++ "m (" ++ strftimeHM ⟨480, 0⟩ ++ ")"
       ∧ 1 ≤ ceilDiv 480 60) :=
  ⟨(format_time_phrase_trichotomy 0 ⟨-120, 0⟩).1 (by decide),
   (format_time_phrase_trichotomy 0 ⟨30, 0⟩).2.1 (by decide) (by decide),
   (format_time_phrase_trichotomy 0 ⟨480, 0⟩).2.2 (by decide)⟩

/-- C4, counterexample: a malformed feed (parse failure) is caught, but the
subsequently rendered text is the fixed no-events message, not an inline
error message. -/
theorem calendar_parse_failure_renders_no_events_cex :
    Calendar.format_calendar calCardFx
        (Calendar.calendar_update calCardFx calStPrior 0 (.ok .malformed)) 0
      = "[bold]📅  Calendar[/bold]\n\nNo upcoming events"
    ∧ strContains (Calendar.format_calendar calCardFx
        (Calendar.calendar_update calCardFx calStPrior 0 (.ok .malformed)) 0)
        "Calendar Error" = false := by
  decide

/-- C4, amended: `update` never raises (every outcome maps to a state); a
network failure (HTTPError or any other exception) is rendered as an inline
"Calendar Error" message; a parse failure (malformed feed) is caught inside
`_parse_ical_events`, which returns `[]` and clears the error message, so the
card renders the no-events message instead of an error. -/
theorem calendar_failure_rendering (card : Calendar.CalendarCard) (st : Calendar.CalState)
    (now : Int) (m : String) (hurl : card.ical_url ≠ "") :
    strContains (Calendar.format_calendar card
        (Calendar.calendar_update card st now (.httpError m)) now) "Calendar Error" = true
    ∧ strContains (Calendar.format_calendar card
        (Calendar.calendar_update card st now (.otherError m)) now) "Calendar Error" = true
    ∧ Calendar.calendar_update card st now (.ok .malformed)
        = { events := [], error_message := "" } := by
  have hhttp := append_ne_empty_and_ne_loading "HTTP Error: " (Calendar.truncate30 m)
    'H' "TTP Error: ".data rfl (by decide)
  have hother := append_ne_empty_and_ne_loading "Error: " (Calendar.truncate30 m)
    'E' "rror: ".data rfl (by decide)
  refine ⟨?_, ?_, ?_⟩
  · have hupd : Calendar.calendar_update card st now (.httpError m)
        = { st with error_message := "HTTP Error: " ++ Calendar.truncate30 m } := by
      simp [Calendar.calendar_update, hurl]
    rw [hupd, format_calendar_error_branch _ _ _ hhttp.1 hhttp.2]
    exact strContains_append_left _ _ _ (by decide)
  · have hupd : Calendar.calendar_update card st now (.otherError m)
        = { st with error_message := "Error: " ++ Calendar.truncate30 m } := by
      simp [Calendar.calendar_update, hurl]
    rw [hupd, format_calendar_error_branch _ _ _ hother.1 hother.2]
    exact strContains_append_left _ _ _ (by decide)
  · simp [Calendar.calendar_update, hurl, Calendar.parse_ical_events]

/-- C4 witness: the amended behavior at the configured fixture card with a
concrete failure message. -/
theorem calendar_failure_rendering_witness :
    strContains (Calendar.format_calendar calCardFx
        (Calendar.calendar_update calCardFx calStPrior 0 (.httpError "boom")) 0)
        "Calendar Error" = true
    ∧ strContains (Calendar.format_calendar calCardFx
        (Calendar.calendar_update calCardFx calStPrior 0 (.otherError "boom")) 0)
        "Calendar Error" = true
    ∧ Calendar.calendar_update calCardFx calStPrior 0 (.ok .malformed)
        = { events := [], error_message := "" } :=
  calendar_failure_rendering calCardFx calStPrior 0 "boom" (by decide)

/-- C5, counterexample: at fetch time 0 (UTC wall clock), a VEVENT with an
explicit +01:00 offset and instant 2600 seconds in the past is retained by
`_parse_ical_events`, because the filter compares zone-stripped wall clocks —
so events strictly in the past are not always excluded. -/
theorem past_event_included_cex :
    ¬ Calendar.future_only 0 (Calendar.parse_ical_events 0 (.wellFormed [compPastAware])) := by
  decide

/-- C5, amended: the parsed list is exactly (up to the stable sort's
reordering) one event per VEVENT component with a present start and truthy
summary whose zone-stripped wall-clock start is at or after the zone-stripped
fetch time — which coincides with the instant comparison for naive and
date-only starts but can misclassify starts with a non-UTC offset — and it is
sorted ascending by start instant. -/
theorem calendar_parse_sorted_and_retained (now : Int) (comps : List Calendar.Component) :
    (Calendar.parse_ical_events now (.wellFormed comps)).Pairwise
      (fun a b => a.start.instant ≤ b.start.instant)
    ∧ (Calendar.parse_ical_events now (.wellFormed comps)).Perm
        (comps.filterMap (Calendar.retained_event now)) := by
  constructor
  · exact pairwise_insertionSort_le (fun e : Calendar.CalEvent => e.start.instant) _
  · rw [← collect_events_eq_filterMap now comps]
    exact List.perm_insertionSort _ _

/-- C6: one iteration of the scheduling loop: when the card's update raises,
the iteration catches it, leaves the internal state and `_last_update`
unchanged, and still proceeds to the next scheduled tick; the timestamp is
set only on success.  The widget-driven variant behaves the same. -/
theorem update_loop_failure_isolation {σ : Type} (upd : σ → Except String σ)
    (now : Int) (c : Base.LoopCard σ) (hrun : c.running = true) :
    (∀ err, upd c.internal = .error err → Base.update_loop_iter upd now c = (c, true))
    ∧ (∀ s', upd c.internal = .ok s' →
        Base.update_loop_iter upd now c
          = ({ c with internal := s', last_update := some now }, true))
    ∧ ∀ (st : σ) (lu : Option Int) (err : String), upd st = .error err →
        Base.widget_update_card upd now st lu = (st, lu) := by
  refine ⟨fun err h => ?_, fun s' h => ?_, fun st lu err h => ?_⟩ <;>
    simp [Base.update_loop_iter, Base.widget_update_card, hrun, h]

/-- C6 witness: a failing update leaves a concrete card state and timestamp
untouched and the loop continues. -/
theorem update_loop_failure_isolation_witness :
    Base.update_loop_iter (fun _ : Nat => (Except.error "boom" : Except String Nat)) 7
      ⟨true, 0, some 3⟩ = (⟨true, 0, some 3⟩, true) :=
  (update_loop_failure_isolation (fun _ : Nat => (Except.error "boom" : Except String Nat))
    7 ⟨true, 0, some 3⟩ rfl).1 "boom" rfl

/-- C7: after `Card.stop` returns the update task is quiescent: any number of
further scheduler steps changes nothing, in particular no further update
invocation happens (the `updates` counter is frozen); and `stop` is
idempotent — stopping an already stopped card (its task finished or
cancelled) is a no-op and raises nothing. -/
theorem card_stop_halts_updates_and_idempotent (s : Base.CardSys) (n : Nat) :
    Base.task_step^[n] (Base.card_stop s) = Base.card_stop s
    ∧ (Base.task_step^[n] (Base.card_stop s)).updates = (Base.card_stop s).updates
    ∧ Base.card_stop (Base.card_stop s) = Base.card_stop s := by
  have hfix : Base.task_step (Base.card_stop s) = Base.card_stop s := by
    rcases h : s.task with _ | ⟨ts, b⟩
    · simp [Base.card_stop, Base.task_step, h]
    · rcases ts with pc | _ <;> simp [Base.card_stop, Base.task_step, h]
  have hiter := Function.iterate_fixed hfix n
  refine ⟨hiter, by rw [hiter], ?_⟩
  rcases h : s.task with _ | ⟨ts, b⟩
  · simp [Base.card_stop, Base.task_step, h]
  · rcases ts with pc | _ <;> simp [Base.card_stop, Base.task_step, h]

/-- C8: the registry is a name-keyed dictionary: registering twice under one
name makes the second card the one resolved (no error is possible), and
`get_card` is an exact, case-sensitive lookup returning `none` for any name
that was never registered. -/
theorem registry_last_write_wins_and_exact_lookup :
    (∀ (r : App.Registry) (c1 c2 : App.RCard), c1.name = c2.name →
        App.get_card (App.register_card (App.register_card r c1) c2) c1.name = some c2)
    ∧ ∀ (cs : List App.RCard) (n : String), (∀ c ∈ cs, c.name ≠ n) →
        App.get_card (App.register_all cs) n = none := by
  constructor
  · intro r c1 c2 h
    simp [App.get_card, App.register_card, h]
  · have hfold : ∀ (n : String) (cs : List App.RCard) (r : App.Registry),
        (∀ c ∈ cs, c.name ≠ n) → (cs.foldl App.register_card r) n = r n := by
      intro n cs
      induction cs with
      | nil => intro r _; rfl
      | cons c cs ih =>
        intro r h
        rw [List.foldl_cons, ih _ fun d hd => h d (List.mem_cons_of_mem _ hd)]
        exact if_neg fun heq => h c (List.mem_cons_self c cs) heq.symm
    intro cs n h
    exact hfold n cs App.empty_registry h

/-- C8 witness: two registrations under "Greeter" resolve to the second, and
looking up "clock" after registering only "Clock" yields `none`. -/
theorem registry_last_write_wins_and_exact_lookup_witness :
    App.get_card (App.register_card (App.register_card App.empty_registry ⟨"Greeter", 0⟩)
        ⟨"Greeter", 1⟩) "Greeter" = some ⟨"Greeter", 1⟩
    ∧ App.get_card (App.register_all [⟨"Clock", 0⟩]) "clock" = none :=
  ⟨registry_last_write_wins_and_exact_lookup.1 App.empty_registry ⟨"Greeter", 0⟩
      ⟨"Greeter", 1⟩ rfl,
   registry_last_write_wins_and_exact_lookup.2 [⟨"Clock", 0⟩] "clock" (by decide)⟩

/-- C9: `time_window` does not influence the transport card's output: for
any card, replacing its `time_window` by any value leaves both the parsed
departure list and the full rendered update text unchanged (including the
fixed "next 60 minutes" empty-list message). -/
theorem transport_time_window_noninterference (c : Transport.TransportCard) (w : Int)
    (now : Int) (payload : Transport.Payload) :
    Transport.parse_departures { c with time_window := w } now payload
      = Transport.parse_departures c now payload
    ∧ Transport.transport_update_render { c with time_window := w } now payload
      = Transport.transport_update_render c now payload :=
  ⟨rfl, rfl⟩

/-- C10: a departure record without an expected (live) time renders the
fixed time phrase "n/a" — `_format_time` yields "n/a" and the rendered line
contains it — and the scheduled (timetable) time never influences the
rendered line at all: replacing it by anything leaves the line unchanged. -/
theorem departure_line_na_and_timetable_unused (thr now : Int) (dep : Transport.Dep)
    (t : Option DT) :
    (dep.expected = none →
        Transport.format_time now dep.expected = "n/a"
        ∧ strContains (Transport.format_line thr now dep) "n/a" = true)
    ∧ Transport.format_line thr now { dep with timetable := t }
        = Transport.format_line thr now dep := by
  refine ⟨fun h => ⟨by rw [h]; rfl, ?_⟩, rfl⟩
  have hm := mem_line_parts_time thr now dep
  rw [h] at hm
  rw [show Transport.format_time now none = "n/a" from rfl] at hm
  exact strContains_joinWith " " "n/a" _ (List.mem_filter.mpr ⟨hm, by decide⟩)

/-- C10 witness: the fixture record with no expected time renders "n/a" and
is insensitive to a timetable value. -/
theorem departure_line_na_and_timetable_unused_witness :
    Transport.format_time 0 depNoTimes.expected = "n/a"
    ∧ strContains (Transport.format_line 60 0 depNoTimes) "n/a" = true
    ∧ Transport.format_line 60 0 { depNoTimes with timetable := some ⟨5, 0⟩ }
        = Transport.format_line 60 0 depNoTimes :=
  ⟨((departure_line_na_and_timetable_unused 60 0 depNoTimes (some ⟨5, 0⟩)).1 rfl).1,
   ((departure_line_na_and_timetable_unused 60 0 depNoTimes (some ⟨5, 0⟩)).1 rfl).2,
   (departure_line_na_and_timetable_unused 60 0 depNoTimes (some ⟨5, 0⟩)).2⟩

end SmartMirror
